import Mathlib

/-!
Verification of the adaptive dynamics-compensation module of `abr_control`
(`abr_control/controllers/signals/dynamics_adaptation.py`), shallowly
embedded over the reals.  Float arithmetic is modelled by `ℝ`; the NumPy
vectors that hold the training signal are modelled as `List ℝ`.
-/

namespace DynamicsAdaptation

/-- Sum of the squares of a vector's entries, `Σ xᵢ²`. -/
def sumSq (x : List ℝ) : ℝ := (x.map (fun a => a ^ 2)).sum

/-- Euclidean norm of a vector, `np.linalg.norm(x)` for a 1-d array. -/
noncomputable def norm2 (x : List ℝ) : ℝ := Real.sqrt (sumSq x)

/-- Embedding of `gate_error` (dynamics_adaptation.py, lines 174-180):
```
def gate_error(x):
    if filter_error:
        if np.linalg.norm(x) > 2.0:
            x /= np.linalg.norm(x) * 0.5
    return x
```
The in-place `x /= c` divides every component by `c = norm(x) * 0.5`. -/
noncomputable def gate_error (filter_error : Bool) (x : List ℝ) : List ℝ :=
  if filter_error = true ∧ 2.0 < norm2 x then
    x.map (fun xi => xi / (norm2 x * 0.5))
  else x

/-- A Nengo connection with scalar `transform` gain `g` and pre-applied
`function` `f` delivers `g * f(u)` (componentwise) to its target. -/
def connApply (gain : ℝ) (f : List ℝ → List ℝ) (u : List ℝ) : List ℝ :=
  (f u).map (fun e => gain * e)

/-- The error connection of dynamics_adaptation.py, lines 181-185:
`nengo.Connection(u_input, conn_learn[ii].learning_rule, transform=-1,
function=gate_error, synapse=0.01)` — the signal delivered to the PES
learning rule is `-1 * gate_error(training_signal)`. -/
noncomputable def errorToLearningRule (filter_error : Bool) (u : List ℝ) : List ℝ :=
  connApply (-1) (gate_error filter_error) u

/-- Embedding of `AreaIntercepts.transform` (dynamics_adaptation.py,
lines 275-281):
```
def transform(self, x):
    sign = 1
    if x > 0:
        x = -x
        sign = -1
    return sign * np.sqrt(1 - scipy.special.betaincinv(
        (self.dimensions + 1) / 2.0, 0.5, x + 1))
```
`scipy.special.betaincinv` is kept abstract as the parameter `bii`; the
two `if 0 < x` conditionals reproduce the sign flip and the in-place
negation of `x`. -/
noncomputable def transform (bii : ℝ → ℝ → ℝ → ℝ) (dimensions : ℝ) (x : ℝ) : ℝ :=
  (if 0 < x then (-1 : ℝ) else 1) *
    Real.sqrt (1 - bii ((dimensions + 1) / 2) 0.5 ((if 0 < x then -x else x) + 1))

/-- Embedding of `AreaIntercepts.sample` (lines 283-287): the base samples
`s` are overwritten elementwise, `s[i] = self.transform(s[i])`. -/
noncomputable def sample (bii : ℝ → ℝ → ℝ → ℝ) (dimensions : ℝ) : List ℝ → List ℝ
  | [] => []
  | a :: rest => transform bii dimensions a :: sample bii dimensions rest

/-- The formula the spec claims for the intercept transform, written from
the spec's words: `y = sign(x) * sqrt(1 − betaincinv((d+1)/2, 0.5, |x|))`. -/
noncomputable def specTransform (bii : ℝ → ℝ → ℝ → ℝ) (dimensions : ℝ) (x : ℝ) : ℝ :=
  Real.sign x * Real.sqrt (1 - bii ((dimensions + 1) / 2) 0.5 |x|)

/-- Closed form of `scipy.special.betaincinv` at its first two arguments
fixed to `(1, 0.5)` — the values `transform` passes when `dimensions = 1`,
since `(1 + 1) / 2 = 1`.  For the regularized incomplete beta function,
`I_x(1, 1/2) = 1 − (1 − x)^{1/2}`, whose inverse is `y ↦ 1 − (1 − y)²`.
The first two arguments are ignored; this model is only ever evaluated at
`a = 1`, `b = 0.5`. -/
def betaincinvD1 : ℝ → ℝ → ℝ → ℝ := fun _ _ y => 1 - (1 - y) ^ 2

/-- Python's float `%` for a positive modulus: `a % m = a − m·⌊a/m⌋`, the
remainder with the sign of the divisor (so `a % m ∈ [0, m)` for `m > 0`). -/
noncomputable def pymod (a m : ℝ) : ℝ := a - m * ⌊a / m⌋

/-- The joint-angle wrap performed by the Feedback Encoder node `qdq_input`
(dynamics_adaptation.py, line 85): `q = ((self.q + np.pi) % (np.pi*2)) - np.pi`,
applied componentwise to the joint-angle vector. -/
noncomputable def wrap_q (q : ℝ) : ℝ := pymod (q + Real.pi) (Real.pi * 2) - Real.pi

/-- `qdq_input`'s position output (lines 82-96): each wrapped joint angle
is passed through the robot configuration's `scaledown` before being
concatenated into the feedback vector. -/
noncomputable def qdq_input_q (scaledown : ℝ → ℝ) (q : List ℝ) : List ℝ :=
  q.map (fun qi => scaledown (wrap_q qi))

/-- A weight transform: `j` output rows (one per joint) by `n` columns
(one per neuron). -/
abbrev WeightMatrix (j n : ℕ) := Matrix (Fin j) (Fin n) ℝ

/-- The persistent weight store seen through `np.load`: a map from paths to
the `'weights'` entry of the archive — a sequence of checkpointed
snapshots, each a non-empty list whose first element is the weight matrix.
`os.path.isfile` is `(files path).isSome`; the empty path never denotes an
existing file. -/
structure WeightStore (j n : ℕ) where
  files : String → Option (List (List (WeightMatrix j n)))
  empty_path_no_file : files "" = none

/-- Embedding of the weight-loading branch of `DynamicsAdaptation.__init__`
(dynamics_adaptation.py, lines 147-156):
```
if os.path.isfile('%s' % weights_file[ii]):
    transform = np.load(weights_file[ii])['weights'][-1][0]
else:
    transform = np.zeros((adapt_ens[ii].n_neurons,
                          self.robot_config.N_JOINTS)).T
```
`[-1]` is `List.getLast?`, `[0]` is `List.head?`; a malformed archive
(empty `'weights'` or empty snapshot) raises, modelled as `none`. -/
def loadTransform {j n : ℕ} (fs : WeightStore j n) (path : String) :
    Option (WeightMatrix j n) :=
  match fs.files path with
  | some w => w.getLast?.bind List.head?
  | none => some (Matrix.transpose (0 : Matrix (Fin n) (Fin j) ℝ))

/-- The load contract the spec claims, written from the spec's words:
deserialize the last-saved snapshot and "return it transposed into the
native (output-dim × neuron-count) orientation" (stated for square
matrices, where the transposed and untransposed orientations share a
type). -/
def specLoadTransform {n : ℕ} (fs : WeightStore n n) (path : String) :
    Option (WeightMatrix n n) :=
  match fs.files path with
  | some w => (w.getLast?.bind List.head?).map Matrix.transpose
  | none => some 0

/-- A concrete non-symmetric 2×2 weight snapshot. -/
def sampleWeight : WeightMatrix 2 2 := !![1, 2; 3, 4]

/-- A concrete store holding one file with a single checkpoint whose
matrix is `sampleWeight`. -/
def sampleStore : WeightStore 2 2 where
  files := fun p => if p = "weights.npz" then some [[sampleWeight]] else none
  empty_path_no_file := if_neg (by decide)

/-- Which optional runtime dependencies are importable in the host
environment. -/
structure HostEnv where
  ocl_installed : Bool
  spinnaker_installed : Bool

/-- Embedding of the backend dispatch at the end of
`DynamicsAdaptation.__init__` (dynamics_adaptation.py, lines 187-214):
`'nengo'` always constructs its simulator; `'nengo_ocl'` and
`'nengo_spinnaker'` first import their runtime dependency and raise on
`ImportError`; any other name raises `Exception('Invalid backend
specified')`. -/
def initBackend (env : HostEnv) (backend : String) : Except String String :=
  if backend = "nengo" then .ok "nengo"
  else if backend = "nengo_ocl" then
    if env.ocl_installed then .ok "nengo_ocl"
    else .error "Nengo OCL not installed, cannot use this backend."
  else if backend = "nengo_spinnaker" then
    if env.spinnaker_installed then .ok "nengo_spinnaker"
    else .error "Nengo SpiNNaker not installed, cannot use this backend."
  else .error "Invalid backend specified"

/-- How an ensemble's preferred-direction encoders were chosen. -/
inductive EncoderPlacement
  | defaultRandom
  | scatteredHypersphere
deriving DecidableEq

/-- An adaptive ensemble: unit count, input dimensionality, and encoder
placement. -/
structure Ensemble where
  n_neurons : ℕ
  dimensions : ℕ
  encoders : EncoderPlacement

/-- `nengo.Ensemble(n_neurons=..., dimensions=..., ...)` (lines 126-130):
no `encoders` argument is passed, so the ensemble gets nengo's default
independently-random encoders. -/
def mkEnsemble (n d : ℕ) : Ensemble := ⟨n, d, .defaultRandom⟩

/-- The one Python exception class relevant to the encoder try-block. -/
inductive PyExc
  | attributeError
deriving DecidableEq

/-- `nengolib.stats.ScatteredHypersphere(surface=True)` (lines 136-137):
when nengolib is not installed the module global `nengolib` is `None`
(lines 13-17) and the attribute access `nengolib.stats` raises
`AttributeError`. -/
def scatteredHypersphereExpr (nengolib_installed : Bool) :
    Except PyExc EncoderPlacement :=
  if nengolib_installed then .ok .scatteredHypersphere
  else .error .attributeError

/-- `adapt_ens.encoders = ...` (line 135): `adapt_ens` is the plain Python
*list* of ensembles, not `adapt_ens[ii]`, and CPython list instances
reject attribute assignment, raising `AttributeError` unconditionally. -/
def setListEncoders (_adapt_ens : List Ensemble) (_ : EncoderPlacement) :
    Except PyExc (List Ensemble) :=
  .error .attributeError

/-- The `try: adapt_ens.encoders = nengolib.stats.ScatteredHypersphere(
surface=True) except AttributeError: pass` block (lines 132-139). -/
def tryOptimizeEncoders (nengolib_installed : Bool)
    (adapt_ens : List Ensemble) : List Ensemble :=
  match (scatteredHypersphereExpr nengolib_installed).bind
      (setListEncoders adapt_ens) with
  | .ok l => l
  | .error .attributeError => adapt_ens

/-- The Python value bound to the name `intercepts` inside the ensemble
construction loop (lines 114-118): initially the constructor argument — an
indexable pair of floats — and, once the loop body has run, the
`AreaIntercepts` distribution object, which defines no `__getitem__`. -/
inductive InterceptsVal
  | boundsPair (lo hi : ℝ)
  | areaDist (dimensions : ℕ) (lo hi : ℝ)

/-- Python subscription `intercepts[k]`: a pair indexes at 0 and 1; the
distribution object is not subscriptable and raises `TypeError`. -/
def getItem : InterceptsVal → ℕ → Except String ℝ
  | .boundsPair lo _, 0 => .ok lo
  | .boundsPair _ hi, 1 => .ok hi
  | .boundsPair _ _, _ => .error "IndexError: tuple index out of range"
  | .areaDist _ _ _, _ =>
      .error "TypeError: AreaIntercepts object is not subscriptable"

/-- One iteration of `for ii in range(n_adapt_pop)` restricted to the
statement that rebinds `intercepts`:
`intercepts = AreaIntercepts(dimensions=N_DIMS,
base=nengo.dists.Uniform(intercepts[0], intercepts[1]))`. -/
def adaptPopStep (dims : ℕ) (s : InterceptsVal) : Except String InterceptsVal := do
  let lo ← getItem s 0
  let hi ← getItem s 1
  pure (.areaDist dims lo hi)

/-- Running the loop body `n_adapt_pop` times from the current binding of
`intercepts`; the first raised exception aborts construction. -/
def buildAdaptPops (dims : ℕ) : ℕ → InterceptsVal → Except String InterceptsVal
  | 0, s => .ok s
  | k + 1, s => (adaptPopStep dims s).bind (buildAdaptPops dims k)

/- ---------- helper lemmas ---------- -/

lemma pymod_eq_fract (a m : ℝ) (hm : m ≠ 0) :
    pymod a m = m * Int.fract (a / m) := by
  have hma : m * (a / m) = a := by field_simp
  rw [pymod, Int.fract, mul_sub, hma]

lemma pymod_mem (a m : ℝ) (hm : 0 < m) : 0 ≤ pymod a m ∧ pymod a m < m := by
  rw [pymod_eq_fract a m (ne_of_gt hm)]
  constructor
  · exact mul_nonneg hm.le (Int.fract_nonneg _)
  · calc m * Int.fract (a / m) < m * 1 :=
        (mul_lt_mul_left hm).mpr (Int.fract_lt_one _)
    _ = m := mul_one m

lemma transform_of_pos (bii : ℝ → ℝ → ℝ → ℝ) (d x : ℝ) (hx : 0 < x) :
    transform bii d x = -Real.sqrt (1 - bii ((d + 1) / 2) 0.5 (-x + 1)) := by
  rw [transform, if_pos hx, if_pos hx, neg_one_mul]

lemma sumSq_nonneg (x : List ℝ) : 0 ≤ sumSq x := by
  induction x with
  | nil => simp [sumSq]
  | cons a t ih =>
      have := sq_nonneg a
      simp only [sumSq, List.map_cons, List.sum_cons] at *
      linarith

lemma sumSq_map_div (x : List ℝ) (c : ℝ) :
    sumSq (x.map (fun xi => xi / c)) = sumSq x / c ^ 2 := by
  induction x with
  | nil => simp [sumSq]
  | cons a t ih =>
      simp only [sumSq, List.map_cons, List.sum_cons] at *
      rw [ih, div_pow, div_add_div_same]

lemma norm2_nonneg (x : List ℝ) : 0 ≤ norm2 x := Real.sqrt_nonneg _

/-- Rescaling a vector by `1 / c` (with `c > 0`) divides its norm by `c`. -/
lemma norm2_map_div (x : List ℝ) (c : ℝ) (hc : 0 < c) :
    norm2 (x.map (fun xi => xi / c)) = norm2 x / c := by
  unfold norm2
  rw [sumSq_map_div, Real.sqrt_div (sumSq_nonneg x),
    Real.sqrt_sq hc.le]

/-- C1, counterexample: with gating enabled and the training-error vector
`[6, 8]` (Euclidean norm 10 > threshold 2.0), the vector reaching the
learning rule has norm 2.0, not 1.0 as the claim states. -/
theorem C1_gate_counterexample :
    norm2 [(6 : ℝ), 8] = 10 ∧
    norm2 (gate_error true [(6 : ℝ), 8]) = 2.0 ∧
    norm2 (gate_error true [(6 : ℝ), 8]) ≠ 1.0 := by
  have hs : sumSq [(6 : ℝ), 8] = 100 := by norm_num [sumSq]
  have h10 : norm2 [(6 : ℝ), 8] = 10 := by
    rw [norm2, hs, show (100 : ℝ) = 10 ^ 2 by norm_num,
      Real.sqrt_sq (by norm_num)]
  have h : (2.0 : ℝ) < norm2 [(6 : ℝ), 8] := by rw [h10]; norm_num
  have hc : (0 : ℝ) < norm2 [(6 : ℝ), 8] * 0.5 := by rw [h10]; norm_num
  have h2 : norm2 (gate_error true [(6 : ℝ), 8]) = 2.0 := by
    unfold gate_error
    rw [if_pos ⟨rfl, h⟩, norm2_map_div _ _ hc, h10]
    norm_num
  exact ⟨h10, h2, by rw [h2]; norm_num⟩

/-- C1 (amended): with error gating enabled, a training-error vector whose
Euclidean norm exceeds the threshold 2.0 is rescaled to have norm exactly
2.0 — the threshold itself, not half of it (`x /= norm * 0.5` divides by
`norm * 0.5`, leaving norm `norm / (norm * 0.5) = 2`); a vector of norm at
most 2.0 passes through unmodified, and with gating disabled every vector
passes through unmodified. -/
theorem C1_gate_amended (x : List ℝ) :
    (2.0 < norm2 x → norm2 (gate_error true x) = 2.0) ∧
    (norm2 x ≤ 2.0 → gate_error true x = x) ∧
    gate_error false x = x := by
  refine ⟨fun h => ?_, fun h => ?_, ?_⟩
  · have hc : (0 : ℝ) < norm2 x * 0.5 := by
      have : (0 : ℝ) < norm2 x := by linarith
      nlinarith
    unfold gate_error
    rw [if_pos ⟨rfl, h⟩, norm2_map_div _ _ hc,
      div_eq_iff (ne_of_gt hc)]
    ring
  · unfold gate_error
    rw [if_neg]
    rintro ⟨-, h2⟩
    linarith
  · simp [gate_error]

/-- C1, witness: the amended theorem applied to the concrete vector
`[6, 8]` of norm 10. -/
theorem C1_gate_amended_witness :
    2.0 < norm2 [(6 : ℝ), 8] ∧ norm2 (gate_error true [(6 : ℝ), 8]) = 2.0 := by
  have hs : sumSq [(6 : ℝ), 8] = 100 := by norm_num [sumSq]
  have h10 : norm2 [(6 : ℝ), 8] = 10 := by
    rw [norm2, hs, show (100 : ℝ) = 10 ^ 2 by norm_num,
      Real.sqrt_sq (by norm_num)]
  have h : (2.0 : ℝ) < norm2 [(6 : ℝ), 8] := by rw [h10]; norm_num
  exact ⟨h, (C1_gate_amended [(6 : ℝ), 8]).1 h⟩

/-- C7: every step, the signal delivered to the PES learning rule is the
(gated) training signal multiplied componentwise by −1 — an error to
minimize, not a reward to maximize; with gating disabled it is exactly the
negated training signal. -/
theorem C7_error_sign_inversion (filter_error : Bool) (u : List ℝ) :
    errorToLearningRule filter_error u =
      (gate_error filter_error u).map (fun e => -e) ∧
    errorToLearningRule false u = u.map (fun e => -e) := by
  constructor
  · simp [errorToLearningRule, connApply, neg_one_mul]
  · simp [errorToLearningRule, connApply, gate_error, neg_one_mul]

/-- C2, counterexample: at dimensionality `d = 1` and base sample
`x = 1/2` (using the exact closed form of `betaincinv(1, 0.5, ·)`), the
code returns `−1/2` while the claimed formula
`sign(x)·sqrt(1 − betaincinv((d+1)/2, 0.5, |x|))` gives `+1/2`: the code
negates the sign and evaluates `betaincinv` at `1 − |x|`, not `|x|`. -/
theorem C2_transform_counterexample :
    transform betaincinvD1 1 (1 / 2) = -(1 / 2) ∧
    specTransform betaincinvD1 1 (1 / 2) = 1 / 2 ∧
    transform betaincinvD1 1 (1 / 2) ≠ specTransform betaincinvD1 1 (1 / 2) := by
  have hq : Real.sqrt (1 - betaincinvD1 ((1 + 1) / 2) 0.5 (1 / 2)) = 1 / 2 := by
    rw [show (1 : ℝ) - betaincinvD1 ((1 + 1) / 2) 0.5 (1 / 2) = (1 / 2) ^ 2 by
      norm_num [betaincinvD1]]
    exact Real.sqrt_sq (by norm_num)
  have h1 : transform betaincinvD1 1 (1 / 2) = -(1 / 2) := by
    rw [transform_of_pos _ _ _ (by norm_num),
      show (-(1 / 2 : ℝ) + 1) = 1 / 2 by norm_num, hq]
  have h2 : specTransform betaincinvD1 1 (1 / 2) = 1 / 2 := by
    rw [specTransform, show |(1 / 2 : ℝ)| = 1 / 2 by rw [abs_of_pos]; norm_num,
      hq, Real.sign_of_pos (by norm_num), one_mul]
  exact ⟨h1, h2, by rw [h1, h2]; norm_num⟩

/-- C2 (amended): for every dimensionality `d ≥ 1` and base sample
`x ∈ [−1, 1]`, the transform returns
`y = (−sign⁺(x)) · sqrt(1 − betaincinv((d+1)/2, 0.5, 1 − |x|))` — i.e.
factor `−1` when `x > 0` and `+1` when `x ≤ 0`, with `betaincinv`
evaluated at `1 − |x|` — and `sample` applies this transform to each base
sample independently. -/
theorem C2_transform_amended (bii : ℝ → ℝ → ℝ → ℝ) (d x : ℝ)
    (hd : 1 ≤ d) (hx1 : -1 ≤ x) (hx2 : x ≤ 1) :
    transform bii d x =
      (if 0 < x then (-1 : ℝ) else 1) *
        Real.sqrt (1 - bii ((d + 1) / 2) 0.5 (1 - |x|)) ∧
    ∀ s : List ℝ, sample bii d s = s.map (transform bii d) := by
  constructor
  · by_cases h : 0 < x
    · rw [transform, if_pos h, if_pos h, abs_of_pos h,
        show -x + 1 = 1 - x by ring]
    · rw [transform, if_neg h, if_neg h,
        abs_of_nonpos (le_of_not_lt h), show x + 1 = 1 - -x by ring]
  · intro s
    induction s with
    | nil => simp [sample]
    | cons a t ih => simp [sample, ih]

/-- C2, witness: the amended theorem applied at `d = 1`, `x = 1/2`. -/
theorem C2_transform_amended_witness :
    (1 : ℝ) ≤ 1 ∧ (-1 : ℝ) ≤ 1 / 2 ∧ (1 / 2 : ℝ) ≤ 1 ∧
    (transform betaincinvD1 1 (1 / 2) =
      (if 0 < (1 / 2 : ℝ) then (-1 : ℝ) else 1) *
        Real.sqrt (1 - betaincinvD1 ((1 + 1) / 2) 0.5 (1 - |(1 / 2 : ℝ)|)) ∧
     ∀ s : List ℝ, sample betaincinvD1 1 s = s.map (transform betaincinvD1 1)) :=
  ⟨le_refl 1, by norm_num, by norm_num,
    C2_transform_amended betaincinvD1 1 (1 / 2) (le_refl 1) (by norm_num)
      (by norm_num)⟩

/-- C8: the intercept transform is odd on `(0, 1)`:
`transform(−x) = −transform(x)` for every `0 < x < 1`, for any model of
`betaincinv` and any dimensionality. -/
theorem C8_transform_odd (bii : ℝ → ℝ → ℝ → ℝ) (d x : ℝ)
    (h0 : 0 < x) (h1 : x < 1) :
    transform bii d (-x) = -transform bii d x := by
  have hneg : ¬ 0 < -x := by linarith
  rw [transform, transform, if_pos h0, if_pos h0, if_neg hneg, if_neg hneg]
  ring

/-- C8, witness: oddness at the concrete point `x = 1/2` (with a trivial
`betaincinv` model and `d = 3`). -/
theorem C8_transform_odd_witness :
    (0 : ℝ) < 1 / 2 ∧ (1 / 2 : ℝ) < 1 ∧
    transform (fun _ _ _ => (0 : ℝ)) 3 (-(1 / 2)) =
      -transform (fun _ _ _ => (0 : ℝ)) 3 (1 / 2) :=
  ⟨by norm_num, by norm_num,
    C8_transform_odd (fun _ _ _ => (0 : ℝ)) 3 (1 / 2) (by norm_num) (by norm_num)⟩

/-- C3, counterexample: at `q = π` the wrapped value is `−π`, which lies
outside the claimed interval `(−π, π]` — the code's wrap lands in
`[−π, π)`, attaining `−π` and never `π`. -/
theorem C3_wrap_counterexample :
    wrap_q Real.pi = -Real.pi ∧ ¬ (-Real.pi < wrap_q Real.pi) := by
  have hne : (Real.pi * 2 : ℝ) ≠ 0 := by positivity
  have hx : (Real.pi + Real.pi) / (Real.pi * 2) = 1 := by
    rw [show Real.pi + Real.pi = Real.pi * 2 by ring, div_self hne]
  have h : wrap_q Real.pi = -Real.pi := by
    rw [wrap_q, pymod, hx, Int.floor_one]
    push_cast
    ring
  exact ⟨h, by rw [h]; exact lt_irrefl _⟩

/-- C3 (amended): each tick the Feedback Encoder wraps every joint angle
into the half-open interval `[−π, π)` (not `(−π, π]`) by
`q' = ((q + π) mod 2π) − π` before scaling; for `q = π + 0.1` the wrapped
value is exactly `−π + 0.1`. -/
theorem C3_wrap_amended :
    (∀ q : ℝ, -Real.pi ≤ wrap_q q ∧ wrap_q q < Real.pi) ∧
    wrap_q (Real.pi + 0.1) = -Real.pi + 0.1 ∧
    (∀ (scaledown : ℝ → ℝ) (q : List ℝ),
      qdq_input_q scaledown q = q.map (fun qi => scaledown (wrap_q qi))) := by
  have hm : (0 : ℝ) < Real.pi * 2 := by positivity
  refine ⟨fun q => ?_, ?_, fun scaledown q => rfl⟩
  · obtain ⟨h0, h1⟩ := pymod_mem (q + Real.pi) (Real.pi * 2) hm
    exact ⟨by rw [wrap_q]; linarith, by rw [wrap_q]; linarith⟩
  · have hpi : (3 : ℝ) < Real.pi := Real.pi_gt_three
    have harg : (Real.pi + 0.1 + Real.pi) / (Real.pi * 2) =
        0.1 / (Real.pi * 2) + 1 := by
      field_simp
      ring
    have hfl : ⌊(Real.pi + 0.1 + Real.pi) / (Real.pi * 2)⌋ = 1 := by
      rw [harg, Int.floor_add_one,
        show ⌊(0.1 : ℝ) / (Real.pi * 2)⌋ = 0 from
          Int.floor_eq_zero_iff.mpr
            (Set.mem_Ico.mpr ⟨by positivity, by rw [div_lt_one hm]; linarith⟩)]
      norm_num
    rw [wrap_q, pymod, hfl]
    push_cast
    ring

/-- C4: when the weights path is empty or does not denote an existing
file, the initial weight transform is the all-zero matrix of shape
(joint count × neuron count) — `np.zeros((n_neurons, N_JOINTS)).T`. -/
theorem C4_zero_default {j n : ℕ} (fs : WeightStore j n) (path : String)
    (h : path = "" ∨ fs.files path = none) :
    loadTransform fs path = some (0 : WeightMatrix j n) := by
  have hn : fs.files path = none := by
    rcases h with h | h
    · rw [h, fs.empty_path_no_file]
    · exact h
  simp [loadTransform, hn, Matrix.transpose_zero]

/-- C4, witness: a store with no files and the empty path yield the zero
transform. -/
theorem C4_zero_default_witness :
    loadTransform (⟨fun _ => none, rfl⟩ : WeightStore 2 3) "" = some 0 :=
  C4_zero_default _ "" (Or.inl rfl)

/-- C5, counterexample: for a file holding the single snapshot
`!![1, 2; 3, 4]`, the code uses the snapshot's matrix as-is — no
transposition is applied (`['weights'][-1][0]` with no `.T`), while the
claim predicts the transposed matrix; the two differ. -/
theorem C5_load_counterexample :
    loadTransform sampleStore "weights.npz" = some sampleWeight ∧
    specLoadTransform sampleStore "weights.npz" = some sampleWeight.transpose ∧
    sampleWeight ≠ sampleWeight.transpose := by
  refine ⟨by simp [loadTransform, sampleStore], by simp [specLoadTransform, sampleStore], ?_⟩
  intro h
  have h01 := congrFun (congrFun h 0) 1
  rw [Matrix.transpose_apply] at h01
  simp [sampleWeight] at h01

/-- C5 (amended): construction deserializes the last snapshot in the
checkpoint sequence and uses its matrix directly — already in the
(output-dim × neuron-count) orientation — as the initial weight transform;
no transposition is applied on load. -/
theorem C5_load_amended {j n : ℕ} (fs : WeightStore j n) (path : String)
    (w : List (List (WeightMatrix j n))) (ckpt : List (WeightMatrix j n))
    (M : WeightMatrix j n)
    (hf : fs.files path = some w) (hl : w.getLast? = some ckpt)
    (hh : ckpt.head? = some M) :
    loadTransform fs path = some M := by
  simp [loadTransform, hf, hl, hh]

/-- C5, witness: the amended load contract at the concrete store. -/
theorem C5_load_amended_witness :
    loadTransform sampleStore "weights.npz" = some sampleWeight :=
  C5_load_amended sampleStore "weights.npz" [[sampleWeight]] [sampleWeight]
    sampleWeight (by simp [sampleStore]) rfl rfl

/-- C6: an unrecognized backend name raises a fatal configuration error,
and each recognized accelerated (`nengo_ocl`) or distributed
(`nengo_spinnaker`) backend whose runtime dependency is absent also raises
— construction never silently downgrades to another backend. -/
theorem C6_backend_errors (env : HostEnv) (backend : String) :
    (backend ≠ "nengo" ∧ backend ≠ "nengo_ocl" ∧ backend ≠ "nengo_spinnaker" →
      initBackend env backend = .error "Invalid backend specified") ∧
    (backend = "nengo_ocl" → env.ocl_installed = false →
      initBackend env backend =
        .error "Nengo OCL not installed, cannot use this backend.") ∧
    (backend = "nengo_spinnaker" → env.spinnaker_installed = false →
      initBackend env backend =
        .error "Nengo SpiNNaker not installed, cannot use this backend.") := by
  refine ⟨fun ⟨h1, h2, h3⟩ => ?_, fun hb hi => ?_, fun hb hi => ?_⟩
  · rw [initBackend, if_neg h1, if_neg h2, if_neg h3]
  · subst hb
    rw [initBackend, if_neg (by decide : ¬("nengo_ocl" = "nengo")),
      if_pos rfl, hi]
    rfl
  · subst hb
    rw [initBackend, if_neg (by decide : ¬("nengo_spinnaker" = "nengo")),
      if_neg (by decide : ¬("nengo_spinnaker" = "nengo_ocl")), if_pos rfl, hi]
    rfl

/-- C6, witness: the unrecognized name `"torch"` in a host with neither
optional dependency fails fatally. -/
theorem C6_backend_errors_witness :
    initBackend ⟨false, false⟩ "torch" = .error "Invalid backend specified" :=
  (C6_backend_errors ⟨false, false⟩ "torch").1 ⟨by decide, by decide, by decide⟩

/-- C9 (code bug): the encoder-optimization try-block never assigns the
scattered-hypersphere placement, even when nengolib is installed — the
assignment targets the Python list `adapt_ens` (a slip for
`adapt_ens[ii]`), raises `AttributeError`, and the except-clause swallows
it, so every ensemble keeps nengo's default independently-random encoders,
contradicting the code's own comment "if the NengoLib is installed, use it
to optimize encoder placement". Construction does continue (the graceful
half of the claim holds). -/
theorem C9_encoders_never_assigned (nengolib_installed : Bool)
    (adapt_ens : List Ensemble) (n d : ℕ) :
    tryOptimizeEncoders nengolib_installed adapt_ens = adapt_ens ∧
    (mkEnsemble n d).encoders = EncoderPlacement.defaultRandom := by
  refine ⟨?_, rfl⟩
  cases nengolib_installed <;>
    simp [tryOptimizeEncoders, scatteredHypersphereExpr, setListEncoders,
      Except.bind]

/-- C10: with `n_adapt_pop ≥ 2` construction fails — the first loop
iteration rebinds `intercepts` to the `AreaIntercepts` object, so the
second iteration subscripts a non-indexable distribution and raises;
`n_adapt_pop = 1` completes with the distribution built from the original
bounds pair. -/
theorem C10_intercepts_rebinding (dims : ℕ) (lo hi : ℝ) (n : ℕ) (hn : 2 ≤ n) :
    (∃ msg, buildAdaptPops dims n (.boundsPair lo hi) = .error msg) ∧
    buildAdaptPops dims 1 (.boundsPair lo hi) = .ok (.areaDist dims lo hi) := by
  refine ⟨?_, rfl⟩
  obtain ⟨k, rfl⟩ : ∃ k, n = k + 2 := ⟨n - 2, by omega⟩
  have e1 : buildAdaptPops dims (k + 2) (.boundsPair lo hi) =
      buildAdaptPops dims (k + 1) (.areaDist dims lo hi) := rfl
  have e2 : buildAdaptPops dims (k + 1) (.areaDist dims lo hi) =
      .error "TypeError: AreaIntercepts object is not subscriptable" := rfl
  exact ⟨_, e1.trans e2⟩

/-- C10, witness: `n_adapt_pop = 2` with the default intercept bounds
`(0.5, 1.0)` fails during construction. -/
theorem C10_intercepts_rebinding_witness :
    2 ≤ 2 ∧ ∃ msg, buildAdaptPops 6 2 (.boundsPair 0.5 1.0) = .error msg :=
  ⟨le_refl 2, (C10_intercepts_rebinding 6 0.5 1.0 2 (le_refl 2)).1⟩

end DynamicsAdaptation
